import Mathlib

set_option maxHeartbeats 1000000

/- Shallow embedding of the echoflow conversion-orchestration layer:
   `src/echoflow/converters/base.py`, `src/echoflow/converters/docling_converter.py`
   and `src/echoflow/ai/model_manager.py`.  Python machine state (filesystem,
   wall clock, the external docling engine) is passed in explicitly as data;
   Python exceptions are modelled with `Except`. -/

/-- Metadata record: dataclass `ConversionMetadata` in base.py.  The
`custom_properties` open mapping (`dict[str, Any]`) is modelled as an
association list of strings. -/
structure ConversionMetadata where
  title : Option String := none
  author : Option String := none
  subject : Option String := none
  creator : Option String := none
  producer : Option String := none
  creation_date : Option String := none
  modification_date : Option String := none
  page_count : Option Nat := none
  word_count : Option Nat := none
  character_count : Option Nat := none
  language : Option String := none
  keywords : List String := []
  custom_properties : List (String × String) := []
  deriving Repr, DecidableEq

/-- The dict literal built by `DoclingConverter._extract_metadata`
(docling_converter.py).  Keys of the Python dict become optional fields;
`extraction_error` is present exactly on the exception path. -/
structure DoclingMetadata where
  title : Option String := none
  author : Option String := none
  creation_date : Option String := none
  modification_date : Option String := none
  subject : Option String := none
  keywords : List String := []
  page_count : Option Nat := none
  language : Option String := none
  character_count : Option Nat := none
  extraction_error : Option String := none
  deriving Repr, DecidableEq

/-- A `ConversionResult.metadata` value is either a `ConversionMetadata`
dataclass instance (constructed by the failure branches of
`BaseConverter.convert`) or the dict produced by
`DoclingConverter._extract_metadata` (Python does not check the annotation). -/
inductive MetadataValue where
  | structured (m : ConversionMetadata)
  | docling (d : DoclingMetadata)
  deriving Repr, DecidableEq

/-- One image descriptor dict appended by `DoclingConverter._extract_images`. -/
structure ImageDescriptor where
  filename : String
  path : String
  size : Option Nat := none
  format : String := "png"
  page_number : Option Int := none
  deriving Repr, DecidableEq

/-- One hyperlink dict appended by `DoclingConverter._extract_hyperlinks`. -/
structure LinkInfo where
  text : String := ""
  url : String := ""
  page_number : Option Int := none
  deriving Repr, DecidableEq

/-- Result record: dataclass `ConversionResult` in base.py.
`processing_time_seconds` (a Python float measured from the wall clock) is
modelled as a rational. -/
structure ConversionResult where
  success : Bool
  markdown_content : String
  metadata : MetadataValue
  extracted_images : List ImageDescriptor := []
  hyperlinks : List LinkInfo := []
  processing_time_seconds : ℚ := 0
  converter_used : String := ""
  error_message : Option String := none
  warnings : List String := []
  deriving Repr, DecidableEq

/-- Options record: dataclass `ConversionOptions` in base.py, with the
defaults of the source. -/
structure ConversionOptions where
  extract_images : Bool := true
  preserve_formatting : Bool := true
  extract_hyperlinks : Bool := true
  extract_metadata : Bool := true
  extract_tables : Bool := true
  output_format : String := "markdown"
  image_format : String := "png"
  max_image_size : Nat := 5 * 1024 * 1024
  timeout_seconds : Int := 300
  deriving Repr, DecidableEq

/-- Python exceptions that can reach `BaseConverter.convert`'s handlers,
tagged by which `except` clause catches them: `ValidationError`,
`ConversionError`, or any other `Exception`.  The payload is `str(e)`. -/
inductive PyExc where
  | validation (msg : String)
  | conversion (msg : String)
  | other (msg : String)
  deriving Repr, DecidableEq

/-- The filesystem facts `BaseConverter` consults about a path:
`Path.exists()`, `Path.is_file()` and `Path.stat().st_size`. -/
structure FileSystem where
  pathExists : String → Bool
  isFile : String → Bool
  fileSize : String → Nat

/-- A registered converter.  The repository's only concrete converter
(`DoclingConverter`) inherits `BaseConverter.can_convert`, so a converter is
determined by its `_name` and `_supported_formats`. -/
structure Converter where
  name : String
  supported_formats : List String
  deriving Repr, DecidableEq

/-- Python `str.lower()` (ASCII case mapping, which covers every string the
converter layer compares). -/
def lowerStr (s : String) : String :=
  String.mk (s.toList.map Char.toLower)

/-- Python `str.strip()` with no argument: drop leading and trailing
whitespace. -/
def trimStr (s : String) : String :=
  String.mk ((((s.toList.dropWhile Char.isWhitespace).reverse).dropWhile
    Char.isWhitespace).reverse)

/-- Python's `<` on strings: lexicographic comparison by code point. -/
def charListLt : List Char → List Char → Bool
  | _, [] => false
  | [], _ :: _ => true
  | a :: as, b :: bs =>
    if a.toNat < b.toNat then true
    else if b.toNat < a.toNat then false
    else charListLt as bs

/-- Strict string order (Python `a < b`). -/
def strLtB (a b : String) : Bool :=
  charListLt a.toList b.toList

/-- String order (Python `a <= b`). -/
def strLeB (a b : String) : Bool :=
  !(strLtB b a)

/-- The `BaseConverter.__init__` normalisation: formats are lowercased. -/
def mkConverter (name : String) (formats : List String) : Converter :=
  { name := name, supported_formats := formats.map lowerStr }

/-- The final component of a path (pathlib `Path.name`): the characters
after the last slash.  (Trailing-slash normalisation of pathlib is not
modelled; no claim touches it.) -/
def pathBasename (p : String) : String :=
  String.mk ((p.toList.reverse.takeWhile (fun c => !(c == '/'))).reverse)

/-- Index of the last occurrence of a character in a list, if any. -/
def lastIdxOf (cs : List Char) (c : Char) : Option Nat :=
  match List.indexOf? c cs.reverse with
  | none => none
  | some j => some (cs.length - 1 - j)

/-- Pathlib `Path.suffix`: the extension of the final component including the
leading dot, or the empty string.  CPython: `i = name.rfind(".")`; the suffix
is `name[i:]` when `0 < i < len(name) - 1`, else empty. -/
def pathSuffix (p : String) : String :=
  let n := pathBasename p
  match lastIdxOf n.toList '.' with
  | none => ""
  | some i => if 0 < i ∧ i + 1 < n.length then String.mk (n.toList.drop i) else ""

/-- The normalised extension used by `can_convert`:
`file_path.suffix.lower().lstrip(".")`. -/
def normalizedSuffix (p : String) : String :=
  String.mk ((lowerStr (pathSuffix p)).toList.dropWhile (fun c => c == '.'))

/-- Embedding of `BaseConverter.can_convert`: a nonexistent path is rejected,
otherwise the normalised extension must be among the supported formats. -/
def can_convert (fs : FileSystem) (c : Converter) (p : String) : Bool :=
  if !(fs.pathExists p) then false
  else c.supported_formats.contains (normalizedSuffix p)

/-- Embedding of `BaseConverter.validate_input`.  A raised `ValidationError`
becomes `Except.error` carrying the exception. -/
def validate_input (fs : FileSystem) (c : Converter) (p : String)
    (_opts : ConversionOptions) : Except PyExc Unit :=
  if !(fs.pathExists p) then
    Except.error (PyExc.validation ("File does not exist: " ++ p))
  else if !(fs.isFile p) then
    Except.error (PyExc.validation ("Path is not a file: " ++ p))
  else if !(can_convert fs c p) then
    Except.error (PyExc.validation ("Unsupported file format: " ++ pathSuffix p))
  else if fs.fileSize p > 100 * 1024 * 1024 then
    Except.error (PyExc.validation ("File too large: " ++ toString (fs.fileSize p) ++
      " bytes (max: " ++ toString (100 * 1024 * 1024) ++ ")"))
  else
    Except.ok ()

/-- The message stored by the `except` clauses of `BaseConverter.convert`:
typed validation/conversion errors contribute `str(e)` verbatim, any other
exception is wrapped with the `Unexpected error during conversion` text. -/
def excMessage : PyExc → String
  | PyExc.validation m => m
  | PyExc.conversion m => m
  | PyExc.other m => "Unexpected error during conversion: " ++ m

/-- The failed `ConversionResult` built by each `except` clause of
`BaseConverter.convert` (they differ only in the message). -/
def failResult (c : Converter) (e : PyExc) (elapsed : ℚ) : ConversionResult :=
  { success := false
    markdown_content := ""
    metadata := MetadataValue.structured {}
    processing_time_seconds := elapsed
    converter_used := c.name
    error_message := some (excMessage e) }

/-- Outcome of `asyncio.wait_for(self._convert_document(...), timeout)`:
the delegate returned a result, raised an exception, or the timeout fired. -/
inductive DelegateOutcome where
  | ok (r : ConversionResult)
  | raised (e : PyExc)
  | timedOut
  deriving Repr, DecidableEq

/-- The timeout message of `BaseConverter.convert`. -/
def timeoutMessage (opts : ConversionOptions) : String :=
  "Conversion timed out after " ++ toString opts.timeout_seconds ++ " seconds"

/-- Embedding of `BaseConverter.convert`.  `mk` is the outcome of
`output_dir.mkdir(parents=True, exist_ok=True)` and `del1` the outcome of the
delegate call under `asyncio.wait_for`; `elapsed` is the wall-clock value
`time.time() - start_time` at the point the result is produced. -/
def convert (c : Converter) (fs : FileSystem) (p : String) (_outDir : String)
    (opts : ConversionOptions) (mk : Except PyExc Unit) (del1 : DelegateOutcome)
    (elapsed : ℚ) : ConversionResult :=
  match validate_input fs c p opts with
  | Except.error e => failResult c e elapsed
  | Except.ok _ =>
    match mk with
    | Except.error e => failResult c e elapsed
    | Except.ok _ =>
      match del1 with
      | DelegateOutcome.timedOut =>
        { success := false
          markdown_content := ""
          metadata := MetadataValue.structured {}
          processing_time_seconds := elapsed
          converter_used := c.name
          error_message := some (timeoutMessage opts) }
      | DelegateOutcome.raised e => failResult c e elapsed
      | DelegateOutcome.ok r =>
        { r with processing_time_seconds := elapsed, converter_used := c.name }

/-- Embedding of `ConverterRegistry.get_converter`: linear scan in
registration order, first converter whose `can_convert` accepts the path. -/
def get_converter (fs : FileSystem) (reg : List Converter) (p : String) :
    Option Converter :=
  reg.find? (fun c => can_convert fs c p)

/-- Embedding of `ConverterRegistry.get_converters_for_format`. -/
def get_converters_for_format (reg : List Converter) (ext : String) :
    List Converter :=
  reg.filter (fun c => c.supported_formats.contains
    (String.mk ((lowerStr ext).toList.dropWhile (fun ch => ch == '.'))))

/-- Deduplication of a list of strings (the `set(...)` of
`list_supported_formats`; the output order is irrelevant because the result
is sorted afterwards). -/
def dedupStr : List String → List String
  | [] => []
  | a :: l => if a ∈ dedupStr l then dedupStr l else a :: dedupStr l

/-- Insertion into a sorted list of strings. -/
def insertSorted (x : String) : List String → List String
  | [] => [x]
  | a :: l => if strLeB x a then x :: a :: l else a :: insertSorted x l

/-- Insertion sort by Python's string order (the `sorted(...)` of
`list_supported_formats`). -/
def sortStrs : List String → List String
  | [] => []
  | a :: l => insertSorted a (sortStrs l)

/-- Embedding of `ConverterRegistry.list_supported_formats`:
`sorted(set(union of formats))`, realised as flatten, dedup, sort. -/
def list_supported_formats (reg : List Converter) : List String :=
  sortStrs (dedupStr (reg.flatMap (fun c => c.supported_formats)))

/-- The optional `metadata` attribute of the docling engine result, with the
sub-attributes `_extract_metadata` probes via `getattr`. -/
structure DocMetaAttrs where
  title : Option String := none
  author : Option String := none
  creation_date : Option String := none
  modification_date : Option String := none
  subject : Option String := none
  deriving Repr, DecidableEq

/-- One element of the engine result's `images` sequence (only `page_number`
is read, via `getattr` with default). -/
structure ImageInfo where
  page_number : Option Int := none
  deriving Repr, DecidableEq

/-- The duck-typed docling engine result as observed by the extraction
helpers.  Attribute probes that may themselves raise are `Except`:
an `error` value means touching the attribute (or iterating it) raises, an
`ok none` means the attribute is absent (`hasattr` false). -/
structure DocResult where
  export_markdown : Option (Except String String) := none
  strRepr : String := ""
  metadataAttr : Except String (Option DocMetaAttrs) := Except.ok none
  pagesAttr : Except String (Option Nat) := Except.ok none
  images : Except String (List ImageInfo) := Except.ok []
  links : Except String (List LinkInfo) := Except.ok []

/-- Embedding of `DoclingConverter._extract_markdown`: prefer
`export_to_markdown()`, fall back to `str(doc_result)`; an empty (whitespace
only) extraction yields the placeholder document, and an exception during
extraction yields the error placeholder. -/
def extract_markdown (doc : DocResult) : String :=
  match doc.export_markdown with
  | some (Except.error e) =>
    "# Conversion Error\n\nFailed to extract content: " ++ e
  | some (Except.ok md) =>
    if trimStr md = "" then "# Document Converted\n\nNo readable content found."
    else md
  | none =>
    if trimStr doc.strRepr = "" then "# Document Converted\n\nNo readable content found."
    else doc.strRepr

/-- Embedding of `DoclingConverter._extract_metadata`: builds the metadata
dict from the optional `metadata` and `pages` attributes; if probing either
raises, returns the dict carrying only `extraction_error`. -/
def extract_metadata (doc : DocResult) : DoclingMetadata :=
  match doc.metadataAttr with
  | Except.error e => { title := none, author := none, extraction_error := some e }
  | Except.ok m =>
    match doc.pagesAttr with
    | Except.error e => { title := none, author := none, extraction_error := some e }
    | Except.ok pg =>
      let base : DoclingMetadata := {}
      let withMeta :=
        match m with
        | none => base
        | some a =>
          { base with
            title := a.title
            author := a.author
            creation_date := a.creation_date
            modification_date := a.modification_date
            subject := a.subject }
      { withMeta with page_count := pg }

/-- The descriptor dict built for the i-th image (0-based index `i`;
the source uses `i + 1` in the filename and saves under `images/`). -/
def imageDescriptorAt (i : Nat) (img : ImageInfo) : ImageDescriptor :=
  { filename := "image_" ++ toString (i + 1) ++ ".png"
    path := "images/" ++ "image_" ++ toString (i + 1) ++ ".png"
    size := none
    format := "png"
    page_number := img.page_number }

/-- Embedding of `DoclingConverter._extract_images`.  Returns `[]`
immediately when image extraction is disabled; `imagesDirOk` is whether
`images_dir.mkdir(exist_ok=True)` succeeds (its failure, like a raising
`images` attribute, is caught by the outer `except` and yields `[]`). -/
def extract_images (doc : DocResult) (imagesDirOk : Bool)
    (opts : ConversionOptions) : List ImageDescriptor :=
  if !opts.extract_images then []
  else if !imagesDirOk then []
  else
    match doc.images with
    | Except.error _ => []
    | Except.ok imgs => imgs.enum.map (fun pr => imageDescriptorAt pr.1 pr.2)

/-- Embedding of `DoclingConverter._extract_hyperlinks`: best effort, a
raising `links` attribute yields `[]`. -/
def extract_hyperlinks (doc : DocResult) : List LinkInfo :=
  match doc.links with
  | Except.error _ => []
  | Except.ok ls => ls

/-- Embedding of `DoclingConverter._convert_document`.  `initOutcome` is the
outcome of `_initialize_converter` (its raised `ConversionError` message
propagates untouched, since the call sits before the `try`); `handleOutcome`
of `model_manager.get_converter()`; `engineOutcome` of
`asyncio.to_thread(converter.convert, path)`.  Exceptions inside the `try`
are re-raised as `ConversionError` with the `AI document conversion failed`
prefix.  `engineTime` is the measured (already rounded) engine time. -/
def doclingConvertDocument (initOutcome : Except String Unit)
    (handleOutcome : Except String Unit) (engineOutcome : Except String DocResult)
    (imagesDirOk : Bool) (opts : ConversionOptions) (engineTime : ℚ) :
    Except PyExc ConversionResult :=
  match initOutcome with
  | Except.error m => Except.error (PyExc.conversion m)
  | Except.ok _ =>
    match handleOutcome with
    | Except.error m =>
      Except.error (PyExc.conversion ("AI document conversion failed: " ++ m))
    | Except.ok _ =>
      match engineOutcome with
      | Except.error m =>
        Except.error (PyExc.conversion ("AI document conversion failed: " ++ m))
      | Except.ok doc =>
        Except.ok
          { success := true
            markdown_content := extract_markdown doc
            metadata := MetadataValue.docling (extract_metadata doc)
            extracted_images := extract_images doc imagesDirOk opts
            hyperlinks := extract_hyperlinks doc
            converter_used := "DoclingAI"
            processing_time_seconds := engineTime
            error_message := none
            warnings := [] }

/-- Wrapping of a delegate run by `asyncio.wait_for`: either the timeout
fires, or the delegate's own outcome comes through. -/
def runDelegate (timedOut : Bool) (d : Except PyExc ConversionResult) :
    DelegateOutcome :=
  if timedOut then DelegateOutcome.timedOut
  else
    match d with
    | Except.error e => DelegateOutcome.raised e
    | Except.ok r => DelegateOutcome.ok r

/-- Typed errors raised by the model manager layer
(`ConversionError` / `ProcessingError`). -/
inductive MgrError where
  | conversionError (msg : String)
  | processingError (msg : String)
  deriving Repr, DecidableEq

/-- State of a `ModelManager` (model_manager.py).  The engine handle is an
opaque identity (`Nat`); `constructions` and `verifications` count calls of
`DocumentConverter()` and `_verify_model_functionality` for observability. -/
structure ManagerState where
  converter : Option Nat
  initialized : Bool
  last_health_check : ℚ
  constructions : Nat
  verifications : Nat
  deriving Repr, DecidableEq

/-- State after `ModelManager.__init__`. -/
def initialState : ManagerState :=
  { converter := none
    initialized := false
    last_health_check := 0
    constructions := 0
    verifications := 0 }

/-- Embedding of `ModelManager._verify_model_functionality`: raises a
`ProcessingError` (wrapped with the `AI model verification failed` prefix)
exactly when the handle is absent; otherwise a no-op. -/
def verifyModelFunctionality (s : ManagerState) :
    ManagerState × Except MgrError Unit :=
  ({ s with verifications := s.verifications + 1 },
   match s.converter with
   | none =>
     Except.error (MgrError.processingError
       ("AI model verification failed: " ++ "Document converter not available"))
   | some _ => Except.ok ())

/-- Message carried by a manager error. -/
def mgrErrorMsg : MgrError → String
  | MgrError.conversionError m => m
  | MgrError.processingError m => m

/-- Embedding of `ModelManager.initialize`.  `construct` is the outcome of
`DocumentConverter()` (new handle, or the exception's message).  A failure
anywhere is re-raised as `ConversionError` with the
`AI model initialization failed` prefix; the initialized flag is set only
after construction and verification both succeed. -/
def initializeModelManager (s : ManagerState) (construct : Except String Nat) :
    ManagerState × Except MgrError Unit :=
  if s.initialized then (s, Except.ok ())
  else
    match construct with
    | Except.error e =>
      ({ s with constructions := s.constructions + 1 },
       Except.error (MgrError.conversionError ("AI model initialization failed: " ++ e)))
    | Except.ok h =>
      let s1 := { s with constructions := s.constructions + 1, converter := some h }
      let v := verifyModelFunctionality s1
      match v.2 with
      | Except.error e =>
        (v.1, Except.error (MgrError.conversionError
          ("AI model initialization failed: " ++ mgrErrorMsg e)))
      | Except.ok _ => ({ v.1 with initialized := true }, Except.ok ())

/-- Embedding of `ModelManager.health_check` at wall-clock time `now`.
Within 300 seconds of the last recorded check the cached boolean
(`initialized and handle present`) is returned with no state change;
otherwise an uninitialized manager reports false (without touching the
timestamp), and an initialized one re-runs verification and stamps the
timestamp whatever the outcome. -/
def health_check (s : ManagerState) (now : ℚ) : ManagerState × Bool :=
  if now - s.last_health_check < 300 then
    (s, s.initialized && s.converter.isSome)
  else if !s.initialized || s.converter.isNone then
    (s, false)
  else
    let v := verifyModelFunctionality s
    match v.2 with
    | Except.ok _ => ({ v.1 with last_health_check := now }, true)
    | Except.error _ => ({ v.1 with last_health_check := now }, false)

/-- Embedding of `ModelManager.cleanup`: drops the handle and clears the
initialized flag. -/
def cleanupManager (s : ManagerState) : ManagerState :=
  { s with converter := none, initialized := false }

/-- Reachability invariant of `ManagerState`: an uninitialized manager holds
no handle.  It holds initially and is preserved by every operation (lemmas
below), because `initialize` only installs the handle on the path that also
sets the flag, or fails before installing it. -/
def mgrInv (s : ManagerState) : Prop :=
  s.initialized = false → s.converter = none

/-- Invariant of the invariant-preservation family: the initial state of a
`ModelManager` satisfies `mgrInv`. -/
theorem mgrInv_initialState : mgrInv initialState := fun _ => rfl

/-- The invariant is preserved by `initialize`: a failing run never installs
the handle, and a successful run sets the flag. -/
theorem mgrInv_initialize_preserved (s : ManagerState) (construct : Except String Nat)
    (h : mgrInv s) : mgrInv (initializeModelManager s construct).1 := by
  unfold initializeModelManager
  cases hs : s.initialized with
  | true =>
    simp only [hs, if_true]
    intro hfalse
    exact absurd hs (by simp [hfalse])
  | false =>
    simp only [hs, Bool.false_eq_true, if_false]
    cases construct with
    | error e => intro _; simpa using h hs
    | ok hd => simp [verifyModelFunctionality, mgrInv]

/-- The invariant is preserved by `health_check` (which never changes the
handle or the flag). -/
theorem mgrInv_health_check_preserved (s : ManagerState) (now : ℚ)
    (h : mgrInv s) : mgrInv (health_check s now).1 := by
  unfold health_check
  by_cases h1 : now - s.last_health_check < 300
  · simpa [h1] using h
  · by_cases h2 : (!s.initialized || s.converter.isNone) = true
    · simpa [h1, h2] using h
    · simp only [h1, h2, if_false]
      cases hv : (verifyModelFunctionality s).2 with
      | ok u => intro hf; simpa [verifyModelFunctionality] using h hf
      | error e => intro hf; simpa [verifyModelFunctionality] using h hf

/-- The invariant is preserved by `cleanup`. -/
theorem mgrInv_cleanup_preserved (s : ManagerState) :
    mgrInv (cleanupManager s) := fun _ => rfl

/-- C4: a `health_check()` call made less than 300 seconds after the last
recorded check returns the cached boolean (`initialized` and handle present)
with the state unchanged — in particular no verification runs — and a second
call within the same 300-second interval returns the identical result. -/
theorem health_check_cached (s : ManagerState) (t₁ t₂ : ℚ)
    (h₁ : t₁ - s.last_health_check < 300) (h₂ : t₂ - s.last_health_check < 300) :
    health_check s t₁ = (s, s.initialized && s.converter.isSome) ∧
    (health_check s t₁).1.verifications = s.verifications ∧
    (health_check (health_check s t₁).1 t₂).2 = (health_check s t₁).2 := by
  have e₁ : health_check s t₁ = (s, s.initialized && s.converter.isSome) := by
    unfold health_check
    rw [if_pos h₁]
  refine ⟨e₁, by rw [e₁], ?_⟩
  rw [e₁]
  show (health_check s t₂).2 = _
  unfold health_check
  rw [if_pos h₂]

/-- Concrete instance for the throttled health check: an initialized manager
checked at times 150 and 250 after a check recorded at 100. -/
def cachedStateW : ManagerState :=
  { converter := some 1
    initialized := true
    last_health_check := 100
    constructions := 1
    verifications := 1 }

/-- Witness for C4 at a concrete state and concrete times. -/
theorem health_check_cached_witness :
    health_check cachedStateW 150 = (cachedStateW, true) ∧
    (health_check cachedStateW 150).1.verifications = 1 ∧
    (health_check (health_check cachedStateW 150).1 250).2 =
      (health_check cachedStateW 150).2 := by
  have h := health_check_cached cachedStateW 150 250
    (by norm_num [cachedStateW]) (by norm_num [cachedStateW])
  exact ⟨h.1, h.2.1, h.2.2⟩

/-- C5: from any state satisfying the reachability invariant, a failing run
of `initialize` leaves the manager uninitialized with the handle absent, and
the raised error is a typed `ConversionError`. -/
theorem initialize_failure_leaves_clean (s : ManagerState)
    (construct : Except String Nat) (e : MgrError) (hinv : mgrInv s)
    (hfail : (initializeModelManager s construct).2 = Except.error e) :
    (initializeModelManager s construct).1.initialized = false ∧
    (initializeModelManager s construct).1.converter = none ∧
    ∃ m, e = MgrError.conversionError m := by
  cases hs : s.initialized with
  | true =>
    have hok : (initializeModelManager s construct).2 = Except.ok () := by
      unfold initializeModelManager
      rw [if_pos hs]
    rw [hok] at hfail
    exact absurd hfail (by simp)
  | false =>
    have hc : s.converter = none := hinv hs
    cases construct with
    | error msg =>
      have heq : initializeModelManager s (Except.error msg) =
          ({ s with constructions := s.constructions + 1 },
           Except.error (MgrError.conversionError
             ("AI model initialization failed: " ++ msg))) := by
        unfold initializeModelManager
        rw [if_neg (by simp [hs])]
      rw [heq] at hfail ⊢
      refine ⟨hs, hc, ?_⟩
      injection hfail with hmsg
      exact ⟨_, hmsg.symm⟩
    | ok hd =>
      have hok : (initializeModelManager s (Except.ok hd)).2 = Except.ok () := by
        unfold initializeModelManager
        rw [if_neg (by simp [hs])]
        simp [verifyModelFunctionality]
      rw [hok] at hfail
      exact absurd hfail (by simp)

/-- Witness for C5: a fresh manager whose engine construction raises. -/
theorem initialize_failure_leaves_clean_witness :
    (initializeModelManager initialState (Except.error "network down")).1.initialized = false ∧
    (initializeModelManager initialState (Except.error "network down")).1.converter = none := by
  have h := initialize_failure_leaves_clean initialState (Except.error "network down")
    (MgrError.conversionError "AI model initialization failed: network down")
    mgrInv_initialState (by rfl)
  exact ⟨h.1, h.2.1⟩

/-- Helper: on an already-initialized manager, `initialize` returns at once
with the state untouched. -/
theorem initialize_noop_of_initialized (s : ManagerState) (c : Except String Nat)
    (h : s.initialized = true) :
    initializeModelManager s c = (s, Except.ok ()) := by
  unfold initializeModelManager
  rw [if_pos h]

/-- C6: after a successful `initialize`, a second call is an exact no-op
(state — handle identity and counters included — unchanged, outcome ok);
construction ran exactly once across the two calls when the first call did
the initializing, and not at all when the manager was already initialized. -/
theorem initialize_idempotent (s : ManagerState) (c₁ c₂ : Except String Nat)
    (h : (initializeModelManager s c₁).2 = Except.ok ()) :
    initializeModelManager (initializeModelManager s c₁).1 c₂ =
      ((initializeModelManager s c₁).1, Except.ok ()) ∧
    (s.initialized = false →
      (initializeModelManager s c₁).1.constructions = s.constructions + 1) ∧
    (s.initialized = true → (initializeModelManager s c₁).1 = s) := by
  have hinit : (initializeModelManager s c₁).1.initialized = true := by
    unfold initializeModelManager at h ⊢
    cases hs : s.initialized with
    | true => simp [hs]
    | false =>
      cases c₁ with
      | error e => simp [hs] at h
      | ok hd => simp [hs, verifyModelFunctionality]
  refine ⟨initialize_noop_of_initialized _ c₂ hinit, ?_, ?_⟩
  · intro hs
    unfold initializeModelManager at h ⊢
    cases c₁ with
    | error e => simp [hs] at h
    | ok hd => simp [hs, verifyModelFunctionality]
  · intro hs
    rw [initialize_noop_of_initialized s c₁ hs]

/-- Witness for C6: two successful calls on a fresh manager construct the
engine exactly once and the second call is a no-op. -/
theorem initialize_idempotent_witness :
    initializeModelManager (initializeModelManager initialState (Except.ok 7)).1 (Except.ok 8) =
      ((initializeModelManager initialState (Except.ok 7)).1, Except.ok ()) ∧
    (initializeModelManager initialState (Except.ok 7)).1.constructions = 1 := by
  have h := initialize_idempotent initialState (Except.ok 7) (Except.ok 8) (by rfl)
  exact ⟨h.1, h.2.1 rfl⟩

/-- A one-file filesystem holding `doc.pdf` (small, regular). -/
def fsDocPdf : FileSystem :=
  { pathExists := fun q => q == "doc.pdf"
    isFile := fun q => q == "doc.pdf"
    fileSize := fun _ => 10 }

/-- The repository's concrete converter identity:
`DoclingConverter.__init__` registers name `DoclingAI` with these formats. -/
def doclingAI : Converter :=
  mkConverter "DoclingAI" ["pdf", "docx", "pptx", "html", "txt", "md"]

/-- Converter `A` of the spec's registry-dispatch example. -/
def convA : Converter := mkConverter "A" ["pdf"]

/-- Converter `B` of the spec's registry-dispatch example. -/
def convB : Converter := mkConverter "B" ["pdf", "txt"]

/-- An empty filesystem: no path exists. -/
def fsEmpty : FileSystem :=
  { pathExists := fun _ => false
    isFile := fun _ => false
    fileSize := fun _ => 0 }

/-- C1: `BaseConverter.convert` always returns a `ConversionResult` (it is a
total function of the run's outcomes): every run either ends in a failure
result with `success = false` and an error message set — covering validation
errors, output-directory creation errors, the timeout and delegate
exceptions — or the delegate completed and its result is returned with
timing and converter identity stamped on. -/
theorem convert_never_raises (c : Converter) (fs : FileSystem) (p d : String)
    (opts : ConversionOptions) (mk : Except PyExc Unit) (del1 : DelegateOutcome)
    (t : ℚ) :
    ((convert c fs p d opts mk del1 t).success = false ∧
     (convert c fs p d opts mk del1 t).error_message.isSome = true) ∨
    (∃ r, del1 = DelegateOutcome.ok r ∧
      convert c fs p d opts mk del1 t =
        { r with processing_time_seconds := t, converter_used := c.name }) := by
  unfold convert
  cases hv : validate_input fs c p opts with
  | error e => left; simp [failResult]
  | ok u =>
    cases mk with
    | error e => left; simp [failResult]
    | ok u2 =>
      cases del1 with
      | timedOut => left; simp
      | raised e => left; simp [failResult]
      | ok r => right; exact ⟨r, rfl, rfl⟩

/-- Helper: an `ok` outcome of `runDelegate` comes from an `ok` outcome of
the wrapped delegate. -/
theorem runDelegate_ok (timedOut : Bool) (d : Except PyExc ConversionResult)
    (r : ConversionResult) (h : runDelegate timedOut d = DelegateOutcome.ok r) :
    d = Except.ok r := by
  cases timedOut with
  | true => exact absurd h (by simp [runDelegate])
  | false =>
    cases d with
    | error e => exact absurd h (by simp [runDelegate])
    | ok r2 =>
      have h2 : r2 = r := by
        have h' := h
        simp [runDelegate] at h'
        exact h'
      rw [h2]

/-- Helper: whenever `DoclingConverter._convert_document` returns (rather
than raises), the returned record has `success = true` and no error
message. -/
theorem doclingConvertDocument_ok_shape (initO handleO : Except String Unit)
    (engineO : Except String DocResult) (imagesDirOk : Bool)
    (opts : ConversionOptions) (engineTime : ℚ) (r : ConversionResult)
    (h : doclingConvertDocument initO handleO engineO imagesDirOk opts engineTime =
      Except.ok r) :
    r.success = true ∧ r.error_message = none := by
  unfold doclingConvertDocument at h
  cases initO with
  | error m => simp at h
  | ok u =>
    cases handleO with
    | error m => simp at h
    | ok u2 =>
      cases engineO with
      | error m => simp at h
      | ok doc =>
        simp only [Except.ok.injEq] at h
        subst h
        exact ⟨rfl, rfl⟩

/-- The result-shape invariant of the spec: a failed result carries an error
message and empty markdown; a successful result carries no error message. -/
def resultInvariant (r : ConversionResult) : Prop :=
  (r.success = false → r.error_message.isSome = true ∧ r.markdown_content = "") ∧
  (r.success = true → r.error_message = none)

/-- C2: every `ConversionResult` produced by `BaseConverter.convert` running
the `DoclingConverter._convert_document` delegate satisfies the invariant:
`success = false` implies the error message is set and the markdown is
empty, and `success = true` implies the error message is absent. -/
theorem convert_docling_invariant (c : Converter) (fs : FileSystem) (p d : String)
    (opts : ConversionOptions) (mk : Except PyExc Unit) (timedOut : Bool)
    (initO handleO : Except String Unit) (engineO : Except String DocResult)
    (imagesDirOk : Bool) (engineTime t : ℚ) :
    resultInvariant (convert c fs p d opts mk
      (runDelegate timedOut
        (doclingConvertDocument initO handleO engineO imagesDirOk opts engineTime))
      t) := by
  have hgen : ∀ del1 : DelegateOutcome,
      (∀ r, del1 = DelegateOutcome.ok r → r.success = true ∧ r.error_message = none) →
      resultInvariant (convert c fs p d opts mk del1 t) := by
    intro del1 hdel
    unfold convert resultInvariant
    cases hv : validate_input fs c p opts with
    | error e => simp [failResult]
    | ok u =>
      cases mk with
      | error e => simp [failResult]
      | ok u2 =>
        cases del1 with
        | timedOut => simp
        | raised e => simp [failResult]
        | ok r =>
          obtain ⟨h1, h2⟩ := hdel r rfl
          simp [h1, h2]
  exact hgen _ (fun r hr =>
    doclingConvertDocument_ok_shape initO handleO engineO imagesDirOk opts engineTime r
      (runDelegate_ok _ _ _ hr))

/-- C3: when validation and output-directory creation succeed and the
delegate does not complete within the timeout, `convert` returns the failed
result whose message is exactly the timeout text with the option's integer
substituted, tagged with the converter's name and the elapsed time. -/
theorem convert_timeout_result (c : Converter) (fs : FileSystem) (p d : String)
    (opts : ConversionOptions) (t : ℚ)
    (hval : validate_input fs c p opts = Except.ok ()) :
    convert c fs p d opts (Except.ok ()) DelegateOutcome.timedOut t =
      { success := false
        markdown_content := ""
        metadata := MetadataValue.structured {}
        extracted_images := []
        hyperlinks := []
        processing_time_seconds := t
        converter_used := c.name
        error_message := some ("Conversion timed out after " ++
          toString opts.timeout_seconds ++ " seconds")
        warnings := [] } := by
  unfold convert
  rw [hval]
  rfl

/-- Witness for C3: an existing small `doc.pdf` under the default options
times out with the literal message naming 300 seconds. -/
theorem convert_timeout_result_witness :
    validate_input fsDocPdf doclingAI "doc.pdf" {} = Except.ok () ∧
    (convert doclingAI fsDocPdf "doc.pdf" "out" {} (Except.ok ())
      DelegateOutcome.timedOut 2).error_message =
      some "Conversion timed out after 300 seconds" ∧
    (convert doclingAI fsDocPdf "doc.pdf" "out" {} (Except.ok ())
      DelegateOutcome.timedOut 2).converter_used = "DoclingAI" := by
  have hval : validate_input fsDocPdf doclingAI "doc.pdf" {} = Except.ok () := by rfl
  have h := convert_timeout_result doclingAI fsDocPdf "doc.pdf" "out" {} 2 hval
  refine ⟨hval, ?_, ?_⟩
  · rw [h]
    rfl
  · rw [h]
    rfl

/-- Helper: a successful `find?` splits the list into a prefix of rejected
elements, the hit, and a remainder. -/
theorem find?_first_split {α : Type} (q : α → Bool) :
    ∀ (l : List α) (c : α), l.find? q = some c →
      ∃ l₁ l₂, l = l₁ ++ c :: l₂ ∧ ∀ b ∈ l₁, q b = false
  | [], c, h => by simp at h
  | a :: l, c, h => by
    by_cases ha : q a = true
    · rw [List.find?_cons_of_pos _ ha] at h
      injection h with h
      subst h
      exact ⟨[], l, rfl, by simp⟩
    · rw [List.find?_cons_of_neg _ ha] at h
      obtain ⟨l₁, l₂, hsplit, hall⟩ := find?_first_split q l c h
      refine ⟨a :: l₁, l₂, by simp [hsplit], ?_⟩
      intro b hb
      rcases List.mem_cons.mp hb with hb | hb
      · subst hb
        exact Bool.not_eq_true _ ▸ eq_false_of_ne_true ha
      · exact hall b hb

/-- C7: `get_converter` scans the registered converters in registration
order and returns the first whose `can_convert` accepts the path (every
converter registered before it rejects the path), or `none` when no
converter accepts it; in particular, with `A({pdf})` registered before
`B({pdf, txt})` and an existing `doc.pdf` both can convert, and `A` is
returned. -/
theorem get_converter_first_match (fs : FileSystem) (reg : List Converter)
    (p : String) :
    (∀ c, get_converter fs reg p = some c →
      can_convert fs c p = true ∧
      ∃ l₁ l₂, reg = l₁ ++ c :: l₂ ∧ ∀ b ∈ l₁, can_convert fs b p = false) ∧
    (get_converter fs reg p = none ↔ ∀ c ∈ reg, can_convert fs c p = false) ∧
    (can_convert fsDocPdf convA "doc.pdf" = true ∧
     can_convert fsDocPdf convB "doc.pdf" = true ∧
     get_converter fsDocPdf [convA, convB] "doc.pdf" = some convA) := by
  refine ⟨?_, ?_, by exact ⟨rfl, rfl, rfl⟩⟩
  · intro c hc
    have hc2 : reg.find? (fun x => can_convert fs x p) = some c := hc
    have hq : (fun x => can_convert fs x p) c = true :=
      @List.find?_some _ (fun x => can_convert fs x p) c reg hc2
    exact ⟨hq, find?_first_split _ reg c hc2⟩
  · unfold get_converter
    rw [List.find?_eq_none]
    constructor
    · intro h c hm
      exact Bool.not_eq_true _ ▸ eq_false_of_ne_true (h c hm)
    · intro h c hm
      simp [h c hm]

/-- C9: `_extract_images` returns the empty list immediately when image
extraction is disabled by the options, and returns the empty list (instead
of raising) when touching or iterating the engine result's `images`
attribute raises; in the latter case the overall `_convert_document` result
still has `success = true` (with no images) whenever the engine conversion
itself returned. -/
theorem extract_images_robust (doc : DocResult) (imagesDirOk : Bool)
    (opts : ConversionOptions) (e : String) (engineTime : ℚ)
    (himg : doc.images = Except.error e) :
    extract_images doc imagesDirOk opts = [] ∧
    (∀ (doc2 : DocResult) (dirOk2 : Bool) (opts2 : ConversionOptions),
      opts2.extract_images = false → extract_images doc2 dirOk2 opts2 = []) ∧
    (∃ r, doclingConvertDocument (Except.ok ()) (Except.ok ()) (Except.ok doc)
        imagesDirOk opts engineTime = Except.ok r ∧
      r.success = true ∧ r.extracted_images = []) := by
  have h1 : extract_images doc imagesDirOk opts = [] := by
    unfold extract_images
    rw [himg]
    by_cases hx : opts.extract_images = true <;> simp [hx]
  refine ⟨h1, ?_, ?_⟩
  · intro doc2 dirOk2 opts2 hdis
    simp [extract_images, hdis]
  · refine ⟨_, rfl, rfl, ?_⟩
    show extract_images doc imagesDirOk opts = []
    exact h1

/-- Witness for C9: an engine result whose `images` attribute raises, and a
run with image extraction disabled, both yield no images; the conversion
with the raising attribute still succeeds. -/
theorem extract_images_robust_witness :
    extract_images { images := Except.error "boom" } true {} = [] ∧
    extract_images {} true { extract_images := false } = [] ∧
    (doclingConvertDocument (Except.ok ()) (Except.ok ())
      (Except.ok { images := Except.error "boom" }) true {} 0).map
        (fun r => r.success) = Except.ok true := by
  have h := extract_images_robust { images := Except.error "boom" } true {} "boom" 0 rfl
  obtain ⟨r, hr, hs, _⟩ := h.2.2
  refine ⟨h.1, h.2.1 {} true { extract_images := false } rfl, ?_⟩
  rw [hr]
  simp [Except.map, hs]

/-- C10: a path that does not exist on the filesystem is rejected by
`can_convert` for every converter (whatever its formats), so
`get_converter` returns `none` for it on every registry. -/
theorem nonexistent_path_rejected (fs : FileSystem) (p : String)
    (reg : List Converter) (h : fs.pathExists p = false) :
    (∀ c : Converter, can_convert fs c p = false) ∧
    get_converter fs reg p = none := by
  have hc : ∀ c : Converter, can_convert fs c p = false := by
    intro c
    unfold can_convert
    rw [h]
    rfl
  refine ⟨hc, ?_⟩
  unfold get_converter
  rw [List.find?_eq_none]
  intro c _
  simp [hc c]

/-- Witness for C10: a registry holding both example converters finds no
converter for a path missing from the filesystem, even though its extension
is supported. -/
theorem nonexistent_path_rejected_witness :
    can_convert fsEmpty convA "ghost.pdf" = false ∧
    get_converter fsEmpty [convA, convB] "ghost.pdf" = none := by
  have h := nonexistent_path_rejected fsEmpty "ghost.pdf" [convA, convB] rfl
  exact ⟨h.1 convA, h.2⟩

/-- Characters with equal code points are equal. -/
theorem char_eq_of_toNat_eq {a b : Char} (h : a.toNat = b.toNat) : a = b := by
  have ha := Char.ofNat_toNat a
  rw [h, Char.ofNat_toNat b] at ha
  exact ha.symm

/-- Irreflexivity of the lexicographic character-list order. -/
theorem charListLt_irrefl : ∀ as : List Char, charListLt as as = false
  | [] => rfl
  | a :: as => by simp [charListLt, charListLt_irrefl as]

/-- Transitivity of the lexicographic character-list order. -/
theorem charListLt_trans : ∀ (as bs cs : List Char),
    charListLt as bs = true → charListLt bs cs = true → charListLt as cs = true
  | _, _, [], _, h2 => by simp [charListLt] at h2
  | _, [], _ :: _, h1, _ => by simp [charListLt] at h1
  | [], _ :: _, _ :: _, _, _ => by simp [charListLt]
  | a :: as, b :: bs, c :: cs, h1, h2 => by
    simp only [charListLt] at h1 h2 ⊢
    by_cases hab : a.toNat < b.toNat
    · by_cases hbc : b.toNat < c.toNat
      · simp [show a.toNat < c.toNat by omega]
      · by_cases hcb : c.toNat < b.toNat
        · simp [hbc, hcb] at h2
        · simp [show a.toNat < c.toNat by omega]
    · by_cases hba : b.toNat < a.toNat
      · simp [hab, hba] at h1
      · by_cases hbc : b.toNat < c.toNat
        · simp [show a.toNat < c.toNat by omega]
        · by_cases hcb : c.toNat < b.toNat
          · simp [hbc, hcb] at h2
          · simp only [hab, hba, if_false] at h1
            simp only [hbc, hcb, if_false] at h2
            simp only [show ¬a.toNat < c.toNat by omega,
              show ¬c.toNat < a.toNat by omega, if_false]
            exact charListLt_trans as bs cs h1 h2

/-- Connexity: two mutually non-less character lists are equal. -/
theorem charListLt_connex : ∀ (as bs : List Char),
    charListLt as bs = false → charListLt bs as = false → as = bs
  | [], [], _, _ => rfl
  | [], _ :: _, h1, _ => by simp [charListLt] at h1
  | _ :: _, [], _, h2 => by simp [charListLt] at h2
  | a :: as, b :: bs, h1, h2 => by
    by_cases hab : a.toNat < b.toNat
    · simp [charListLt, hab] at h1
    · by_cases hba : b.toNat < a.toNat
      · simp [charListLt, hba] at h2
      · have hval : a = b := char_eq_of_toNat_eq (by omega)
        subst hval
        simp only [charListLt, hab, hba, if_false] at h1 h2
        rw [charListLt_connex as bs h1 h2]

/-- Transitivity of the string order. -/
theorem strLeB_trans (a b c : String) (h1 : strLeB a b = true)
    (h2 : strLeB b c = true) : strLeB a c = true := by
  unfold strLeB strLtB at h1 h2 ⊢
  simp only [Bool.not_eq_true'] at h1 h2 ⊢
  by_cases hbc : charListLt b.toList c.toList = true
  · by_cases hca : charListLt c.toList a.toList = true
    · have hba := charListLt_trans _ _ _ hbc hca
      rw [h1] at hba
      simp at hba
    · simpa using hca
  · have hcb : c.toList = b.toList :=
      charListLt_connex _ _ h2 (by simpa using hbc)
    rw [hcb]
    exact h1

/-- Totality of the string order. -/
theorem strLeB_total (a b : String) : strLeB a b = true ∨ strLeB b a = true := by
  unfold strLeB strLtB
  by_cases h1 : charListLt b.toList a.toList = true
  · right
    by_cases h2 : charListLt a.toList b.toList = true
    · have := charListLt_trans _ _ _ h1 h2
      rw [charListLt_irrefl] at this
      exact absurd this (by simp)
    · simpa using h2
  · left
    simpa using h1

/-- A weakly smaller, distinct string is strictly smaller. -/
theorem strLtB_of_strLeB_ne {a b : String} (hle : strLeB a b = true)
    (hne : a ≠ b) : strLtB a b = true := by
  unfold strLeB strLtB at hle
  unfold strLtB
  simp only [Bool.not_eq_true'] at hle
  by_cases h : charListLt a.toList b.toList = true
  · exact h
  · have : a.toList = b.toList := charListLt_connex _ _ (by simpa using h) hle
    exact absurd (String.toList_inj.mp this) hne

/-- Inserting into a list permutes consing. -/
theorem insertSorted_perm (x : String) :
    ∀ l : List String, (insertSorted x l).Perm (x :: l)
  | [] => List.Perm.refl _
  | a :: l => by
    unfold insertSorted
    by_cases h : strLeB x a = true
    · simp [h]
    · simp only [h, if_false]
      exact ((insertSorted_perm x l).cons a).trans (List.Perm.swap x a l)

/-- Insertion preserves sortedness. -/
theorem pairwise_insertSorted (x : String) :
    ∀ l : List String, l.Pairwise (fun a b => strLeB a b = true) →
      (insertSorted x l).Pairwise (fun a b => strLeB a b = true)
  | [], _ => by simp [insertSorted]
  | a :: l, hp => by
    obtain ⟨ha, hl⟩ := List.pairwise_cons.mp hp
    unfold insertSorted
    by_cases h : strLeB x a = true
    · simp only [h, if_true]
      refine List.Pairwise.cons ?_ hp
      intro b hb
      rcases List.mem_cons.mp hb with rfl | hb
      · exact h
      · exact strLeB_trans x a b h (ha b hb)
    · simp only [h, if_false]
      refine List.Pairwise.cons ?_ (pairwise_insertSorted x l hl)
      intro b hb
      rcases List.mem_cons.mp ((insertSorted_perm x l).mem_iff.mp hb) with rfl | hb
      · rcases strLeB_total a b with hab | hba
        · exact hab
        · exact absurd hba h
      · exact ha b hb

/-- Insertion sort permutes its input. -/
theorem sortStrs_perm : ∀ l : List String, (sortStrs l).Perm l
  | [] => List.Perm.refl _
  | a :: l => (insertSorted_perm a (sortStrs l)).trans ((sortStrs_perm l).cons a)

/-- Insertion sort sorts. -/
theorem pairwise_sortStrs :
    ∀ l : List String, (sortStrs l).Pairwise (fun a b => strLeB a b = true)
  | [] => List.Pairwise.nil
  | a :: l => pairwise_insertSorted a (sortStrs l) (pairwise_sortStrs l)

/-- Deduplication preserves membership. -/
theorem mem_dedupStr (b : String) :
    ∀ l : List String, b ∈ dedupStr l ↔ b ∈ l
  | [] => Iff.rfl
  | a :: l => by
    unfold dedupStr
    by_cases h : a ∈ dedupStr l
    · simp only [h, if_true, List.mem_cons, mem_dedupStr b l]
      constructor
      · intro hb
        exact Or.inr hb
      · intro hb
        rcases hb with rfl | hb
        · exact (mem_dedupStr b l).mp h
        · exact hb
    · simp [h, List.mem_cons, mem_dedupStr b l]

/-- Deduplication produces a duplicate-free list. -/
theorem nodup_dedupStr : ∀ l : List String, (dedupStr l).Nodup
  | [] => List.nodup_nil
  | a :: l => by
    unfold dedupStr
    by_cases h : a ∈ dedupStr l
    · simp only [h, if_true]
      exact nodup_dedupStr l
    · simp only [h, if_false]
      exact List.nodup_cons.mpr ⟨h, nodup_dedupStr l⟩

/-- C8: `list_supported_formats` returns exactly the union of the registered
converters' supported formats, strictly sorted in Python's string order
(hence deduplicated); on the registry `[A({pdf}), B({pdf, txt})]` it returns
`["pdf", "txt"]`. -/
theorem list_supported_formats_spec (reg : List Converter) :
    (∀ s, s ∈ list_supported_formats reg ↔
      ∃ c, c ∈ reg ∧ s ∈ c.supported_formats) ∧
    (list_supported_formats reg).Pairwise (fun a b => strLtB a b = true) ∧
    list_supported_formats [convA, convB] = ["pdf", "txt"] := by
  refine ⟨?_, ?_, by rfl⟩
  · intro s
    unfold list_supported_formats
    rw [(sortStrs_perm _).mem_iff, mem_dedupStr, List.mem_flatMap]
  · have hle := pairwise_sortStrs
      (dedupStr (reg.flatMap fun c => c.supported_formats))
    have hnd : (sortStrs
        (dedupStr (reg.flatMap fun c => c.supported_formats))).Nodup :=
      (sortStrs_perm _).nodup_iff.mpr (nodup_dedupStr _)
    exact (hle.and hnd).imp (fun h => strLtB_of_strLeB_ne h.1 h.2)

/-- Witness for C1: the contract instantiated on a concrete failing run. -/
theorem convert_never_raises_witness :
    ((convert convA fsEmpty "ghost.pdf" "out" {} (Except.ok ())
        DelegateOutcome.timedOut 1).success = false ∧
     (convert convA fsEmpty "ghost.pdf" "out" {} (Except.ok ())
        DelegateOutcome.timedOut 1).error_message.isSome = true) ∨
    (∃ r, DelegateOutcome.timedOut = DelegateOutcome.ok r ∧
      convert convA fsEmpty "ghost.pdf" "out" {} (Except.ok ())
        DelegateOutcome.timedOut 1 =
        { r with processing_time_seconds := 1, converter_used := convA.name }) :=
  convert_never_raises convA fsEmpty "ghost.pdf" "out" {} (Except.ok ())
    DelegateOutcome.timedOut 1

/-- Witness for C2: the invariant instantiated on a concrete successful
docling run. -/
theorem convert_docling_invariant_witness :
    resultInvariant (convert doclingAI fsDocPdf "doc.pdf" "out" {}
      (Except.ok ())
      (runDelegate false (doclingConvertDocument (Except.ok ()) (Except.ok ())
        (Except.ok {}) true {} 0))
      1) :=
  convert_docling_invariant doclingAI fsDocPdf "doc.pdf" "out" {}
    (Except.ok ()) false (Except.ok ()) (Except.ok ()) (Except.ok {}) true 0 1

/-- Witness for C7: on the example registry an existing pdf path picks `A`,
and a path no registered converter accepts yields `none`. -/
theorem get_converter_first_match_witness :
    get_converter fsDocPdf [convA, convB] "doc.pdf" = some convA ∧
    get_converter fsEmpty [convA, convB] "doc.pdf" = none := by
  refine ⟨(get_converter_first_match fsDocPdf [convA, convB] "doc.pdf").2.2.2.2, ?_⟩
  refine (get_converter_first_match fsEmpty [convA, convB] "doc.pdf").2.1.mpr ?_
  intro c hc
  rcases List.mem_cons.mp hc with rfl | hc
  · rfl
  · rcases List.mem_cons.mp hc with rfl | hc
    · rfl
    · exact absurd hc (List.not_mem_nil c)

/-- Witness for C8: the format union of the example registry. -/
theorem list_supported_formats_spec_witness :
    list_supported_formats [convA, convB] = ["pdf", "txt"] :=
  (list_supported_formats_spec [convA, convB]).2.2


